import Mathlib

/-!
Verification of the client-side error capture and reporting pipeline:
a shallow embedding of frontend/src/errors/clientErrorReporter.js,
frontend/src/errors/ErrorBoundary.jsx (both observed variants),
frontend/src/main.jsx and the dev-server file logger in
frontend/vite.config.js, together with theorems about deduplication,
transport, the render-failure boundary state machine and the shape of
records on the wire.
-/

/-! ## JavaScript coercion helpers -/

/-- Models the JavaScript idiom String(x || d) (equally, x || d on
string-valued slots): undefined (none) and the empty string are falsy and
fall back to the default d. -/
def strOr (v : Option String) (d : String) : String :=
  match v with
  | some s => if s = "" then d else s
  | none => d

/-- Models Number.isFinite(x) ? x : 0 for a possibly-missing numeric slot. -/
def intOr (v : Option Int) : Int := v.getD 0

/-! ## Decimal rendering of numbers

The dedup signature interpolates line and col with a JS template literal,
which renders a number in decimal; the Lean side is toString, built on
Nat.repr. We prove that rendering injective so that differing line or col
values always produce differing signatures. -/

/-- Structural decimal digit list of a natural number, most significant
digit first; reference function for reasoning about Nat.repr. -/
def decDigits (n : Nat) : List Char :=
  if h : n < 10 then [Nat.digitChar n]
  else
    have : n / 10 < n := Nat.div_lt_self (by omega) (by omega)
    decDigits (n / 10) ++ [Nat.digitChar (n % 10)]

theorem decDigits_lt (n : Nat) (h : n < 10) : decDigits n = [Nat.digitChar n] := by
  rw [decDigits]
  simp [h]

theorem decDigits_ge (n : Nat) (h : ¬ n < 10) :
    decDigits n = decDigits (n / 10) ++ [Nat.digitChar (n % 10)] := by
  rw [decDigits]
  simp [h]

theorem decDigits_ne_nil (n : Nat) : decDigits n ≠ [] := by
  by_cases h : n < 10
  · rw [decDigits_lt n h]
    simp
  · rw [decDigits_ge n h]
    simp

theorem toDigitsCore_eq_decDigits (fuel : Nat) :
    ∀ (n : Nat) (ds : List Char), n < fuel →
      Nat.toDigitsCore 10 fuel n ds = decDigits n ++ ds := by
  induction fuel with
  | zero => intro n ds h; omega
  | succ fuel ih =>
    intro n ds h
    unfold Nat.toDigitsCore
    by_cases h0 : n / 10 = 0
    · have hn : n < 10 := by omega
      simp only [h0, if_pos]
      rw [decDigits_lt n hn, Nat.mod_eq_of_lt hn]
      simp
    · have hn : ¬ n < 10 := by
        intro hlt
        exact h0 (Nat.div_eq_of_lt hlt)
      have hdivlt : n / 10 < fuel := by
        have : n / 10 < n := Nat.div_lt_self (by omega) (by omega)
        omega
      simp only [h0, if_neg]
      rw [ih (n / 10) _ hdivlt, decDigits_ge n hn]
      simp

theorem natRepr_eq_decDigits (n : Nat) : Nat.repr n = (decDigits n).asString := by
  show (Nat.toDigits 10 n).asString = (decDigits n).asString
  unfold Nat.toDigits
  rw [toDigitsCore_eq_decDigits (n + 1) n [] (Nat.lt_succ_self n)]
  simp

theorem digitChar_inj_lt : ∀ a < 10, ∀ b < 10,
    Nat.digitChar a = Nat.digitChar b → a = b := by decide

theorem digitChar_ne_dash : ∀ d < 10, Nat.digitChar d ≠ '-' := by decide

theorem decDigits_inj : ∀ (m n : Nat), decDigits m = decDigits n → m = n := by
  intro m
  induction m using Nat.strong_induction_on with
  | _ m ih =>
    intro n h
    by_cases hm : m < 10 <;> by_cases hn : n < 10
    · rw [decDigits_lt m hm, decDigits_lt n hn] at h
      exact digitChar_inj_lt m hm n hn (List.singleton_injective h)
    · rw [decDigits_lt m hm, decDigits_ge n hn] at h
      have hlen := congrArg List.length h
      simp only [List.length_singleton, List.length_append] at hlen
      have : decDigits (n / 10) = [] := by
        cases hnil : decDigits (n / 10) with
        | nil => rfl
        | cons a l => rw [hnil] at hlen; simp at hlen
      exact absurd this (decDigits_ne_nil _)
    · rw [decDigits_ge m hm, decDigits_lt n hn] at h
      have hlen := congrArg List.length h
      simp only [List.length_singleton, List.length_append] at hlen
      have : decDigits (m / 10) = [] := by
        cases hnil : decDigits (m / 10) with
        | nil => rfl
        | cons a l => rw [hnil] at hlen; simp at hlen
      exact absurd this (decDigits_ne_nil _)
    · rw [decDigits_ge m hm, decDigits_ge n hn] at h
      have hrev := congrArg List.reverse h
      simp only [List.reverse_append, List.reverse_cons, List.reverse_nil,
        List.nil_append, List.singleton_append] at hrev
      have hhead : Nat.digitChar (m % 10) = Nat.digitChar (n % 10) := by
        exact (List.cons.injEq _ _ _ _).mp hrev |>.1
      have htail : (decDigits (m / 10)).reverse = (decDigits (n / 10)).reverse := by
        exact (List.cons.injEq _ _ _ _).mp hrev |>.2
      have hmod : m % 10 = n % 10 :=
        digitChar_inj_lt (m % 10) (Nat.mod_lt m (by omega)) (n % 10)
          (Nat.mod_lt n (by omega)) hhead
      have hdiv : m / 10 = n / 10 :=
        ih (m / 10) (Nat.div_lt_self (by omega) (by omega))
          (n / 10) (List.reverse_injective htail)
      omega

theorem string_data_append (a b : String) : (a ++ b).data = a.data ++ b.data := by
  cases a; cases b; rfl

theorem string_data_inj {a b : String} (h : a.data = b.data) : a = b := by
  cases a; cases b; exact congrArg String.mk h

theorem natRepr_inj {m n : Nat} (h : Nat.repr m = Nat.repr n) : m = n := by
  apply decDigits_inj
  rw [natRepr_eq_decDigits, natRepr_eq_decDigits] at h
  have := congrArg String.data h
  simpa [List.asString] using this

theorem mem_decDigits_ne_dash (n : Nat) : ∀ c ∈ decDigits n, c ≠ '-' := by
  induction n using Nat.strong_induction_on with
  | _ n ih =>
    intro c hc
    by_cases hn : n < 10
    · rw [decDigits_lt n hn] at hc
      simp only [List.mem_singleton] at hc
      subst hc
      exact digitChar_ne_dash n hn
    · rw [decDigits_ge n hn] at hc
      rcases List.mem_append.mp hc with h1 | h2
      · exact ih (n / 10) (Nat.div_lt_self (by omega) (by omega)) c h1
      · simp only [List.mem_singleton] at h2
        subst h2
        exact digitChar_ne_dash (n % 10) (Nat.mod_lt n (by omega))

theorem natRepr_data_eq (n : Nat) : (Nat.repr n).data = decDigits n := by
  rw [natRepr_eq_decDigits]
  simp [List.asString]

theorem intToString_inj {a b : Int} (h : toString a = toString b) : a = b := by
  cases a with
  | ofNat m =>
    cases b with
    | ofNat k =>
      have : Nat.repr m = Nat.repr k := h
      exact congrArg Int.ofNat (natRepr_inj this)
    | negSucc k =>
      exfalso
      have hd : (Nat.repr m).data = ("-" ++ Nat.repr (k + 1)).data := congrArg String.data h
      rw [string_data_append, natRepr_data_eq] at hd
      have hdash : ('-' : Char) ∈ decDigits m := by
        rw [hd]
        show '-' ∈ ['-'] ++ (Nat.repr (k + 1)).data
        simp
      exact mem_decDigits_ne_dash m '-' hdash rfl
  | negSucc m =>
    cases b with
    | ofNat k =>
      exfalso
      have hd : ("-" ++ Nat.repr (m + 1)).data = (Nat.repr k).data := congrArg String.data h
      rw [string_data_append, natRepr_data_eq m.succ, natRepr_data_eq k] at hd
      have hdash : ('-' : Char) ∈ decDigits k := by
        rw [← hd]
        exact List.mem_append_left _ (by decide)
      exact mem_decDigits_ne_dash k '-' hdash rfl
    | negSucc k =>
      have hd : ("-" ++ Nat.repr (m + 1)).data = ("-" ++ Nat.repr (k + 1)).data :=
        congrArg String.data h
      rw [string_data_append, string_data_append] at hd
      have h2 : (Nat.repr (m + 1)).data = (Nat.repr (k + 1)).data :=
        List.append_cancel_left hd
      have h3 := natRepr_inj (string_data_inj h2)
      exact congrArg Int.negSucc (by omega)

/-! ## clientErrorReporter.js: data model -/

/-- The argument object handed to send: each slot may be absent (undefined
in JS). Entries are built by the window error handler, the
unhandled-rejection handler, or ad hoc callers. -/
structure Entry where
  severity : Option String
  message : Option String
  stack : Option String
  source : Option String
  line : Option Int
  col : Option Int
  componentStack : Option String
deriving Repr, DecidableEq

/-- The normalized JSON body built inside send and posted to
/api/client-error. -/
structure Payload where
  severity : String
  message : String
  stack : String
  source : String
  line : Int
  col : Int
  url : String
  userAgent : String
  componentStack : String
deriving Repr, DecidableEq

/-- RECENT_TTL_MS from clientErrorReporter.js. -/
def RECENT_TTL_MS : Nat := 5000

/-- sig from clientErrorReporter.js: the content signature
message|stack|source|line|col with String(x || '') on the text slots and
Number.isFinite(x) ? x : 0 on line and col. -/
def sig (e : Entry) : String :=
  strOr e.message "" ++ "|" ++ strOr e.stack "" ++ "|" ++ strOr e.source "" ++ "|"
    ++ toString (intOr e.line) ++ "|" ++ toString (intOr e.col)

/-- The recent map: signature to expiry timestamp (ms). -/
abbrev DedupMap := List (String × Nat)

/-- JS Map.get on the recent map. -/
def mapGet : DedupMap → String → Option Nat
  | [], _ => none
  | p :: rest, k => if p.1 = k then some p.2 else mapGet rest k

/-- JS Map.set on the recent map: replaces the value at the key when the
key is present, otherwise appends a new binding. -/
def mapSet : DedupMap → String → Nat → DedupMap
  | [], k, v => [(k, v)]
  | p :: rest, k, v => if p.1 = k then (k, v) :: rest else p :: mapSet rest k v

/-- gc from clientErrorReporter.js at time t: deletes every entry whose
expiry is at most t. -/
def gcMap : DedupMap → Nat → DedupMap
  | [], _ => []
  | p :: rest, t => if p.2 ≤ t then gcMap rest t else p :: gcMap rest t

/-- The payload assembled inside send; url and userAgent come from the
ambient page (location.href, navigator.userAgent). -/
def mkPayload (e : Entry) (url userAgent : String) : Payload :=
  { severity := strOr e.severity "error"
    message := strOr e.message ""
    stack := strOr e.stack ""
    source := strOr e.source ""
    line := intOr e.line
    col := intOr e.col
    url := url
    userAgent := userAgent
    componentStack := strOr e.componentStack "" }

/-- send from clientErrorReporter.js, at time t (the single-threaded call
takes one timestamp for the gc sweep, the expiry check and the insertion).
Returns the updated recent map together with the payload handed to post,
or none when the entry was suppressed as a duplicate. -/
def send (m : DedupMap) (t : Nat) (e : Entry) (url userAgent : String) :
    DedupMap × Option Payload :=
  let m1 := gcMap m t
  let key := sig e
  match mapGet m1 key with
  | some exp =>
    if exp ≠ 0 ∧ t < exp then (m1, none)
    else (mapSet m1 key (t + RECENT_TTL_MS), some (mkPayload e url userAgent))
  | none => (mapSet m1 key (t + RECENT_TTL_MS), some (mkPayload e url userAgent))

/-- A sequence of send calls: pairs of call time and entry, threading the
recent map; returns the final map and the list of delivered payloads. -/
def sendSeq : DedupMap → List (Nat × Entry) → String → String →
    DedupMap × List Payload
  | m, [], _, _ => (m, [])
  | m, c :: cs, url, ua =>
    match send m c.1 c.2 url ua with
    | (m1, r) =>
      match sendSeq m1 cs url ua with
      | (m2, ps) => (m2, r.toList ++ ps)

/-! ## Dedup map lemmas -/

theorem mem_gcMap {m : DedupMap} {t : Nat} {p : String × Nat}
    (h : p ∈ gcMap m t) : p ∈ m ∧ t < p.2 := by
  induction m with
  | nil => simp [gcMap] at h
  | cons q rest ih =>
    by_cases hq : q.2 ≤ t
    · simp only [gcMap, if_pos hq] at h
      have := ih h
      exact ⟨List.mem_cons_of_mem q this.1, this.2⟩
    · simp only [gcMap, if_neg hq] at h
      rcases List.mem_cons.mp h with h1 | h2
      · subst h1; exact ⟨List.mem_cons_self _ _, by omega⟩
      · have := ih h2
        exact ⟨List.mem_cons_of_mem q this.1, this.2⟩

theorem mapGet_gcMap_some {m : DedupMap} {k : String} {v : Nat} {t : Nat}
    (h : mapGet m k = some v) (hv : t < v) : mapGet (gcMap m t) k = some v := by
  induction m with
  | nil => simp [mapGet] at h
  | cons q rest ih =>
    by_cases hk : q.1 = k
    · rw [mapGet, if_pos hk] at h
      have hqv : q.2 = v := by injection h
      have hkeep : ¬ q.2 ≤ t := by omega
      rw [gcMap, if_neg hkeep, mapGet, if_pos hk, hqv]
    · rw [mapGet, if_neg hk] at h
      by_cases hq : q.2 ≤ t
      · rw [gcMap, if_pos hq]
        exact ih h
      · rw [gcMap, if_neg hq, mapGet, if_neg hk]
        exact ih h

theorem mapGet_gcMap_none {m : DedupMap} {k : String} {t : Nat}
    (h : mapGet m k = none) : mapGet (gcMap m t) k = none := by
  induction m with
  | nil => simp [gcMap, mapGet]
  | cons q rest ih =>
    by_cases hk : q.1 = k
    · rw [mapGet, if_pos hk] at h
      exact absurd h (by simp)
    · rw [mapGet, if_neg hk] at h
      by_cases hq : q.2 ≤ t
      · rw [gcMap, if_pos hq]
        exact ih h
      · rw [gcMap, if_neg hq, mapGet, if_neg hk]
        exact ih h

theorem mapGet_none_not_mem {m : DedupMap} {k : String}
    (h : mapGet m k = none) : ∀ v, (k, v) ∉ m := by
  induction m with
  | nil => intro v hv; simp at hv
  | cons q rest ih =>
    intro v hv
    by_cases hk : q.1 = k
    · rw [mapGet, if_pos hk] at h
      exact absurd h (by simp)
    · rw [mapGet, if_neg hk] at h
      rcases List.mem_cons.mp hv with h1 | h2
      · apply hk; rw [← h1]
      · exact ih h v h2

theorem mapGet_some_mem {m : DedupMap} {k : String} {v : Nat}
    (h : mapGet m k = some v) : (k, v) ∈ m := by
  induction m with
  | nil => simp [mapGet] at h
  | cons q rest ih =>
    by_cases hk : q.1 = k
    · rw [mapGet, if_pos hk] at h
      have : q.2 = v := by injection h
      have hq : q = (k, v) := by
        cases q; simp_all
      rw [hq] at *
      exact List.mem_cons_self _ _
    · rw [mapGet, if_neg hk] at h
      exact List.mem_cons_of_mem q (ih h)

theorem mapGet_mapSet_self (m : DedupMap) (k : String) (v : Nat) :
    mapGet (mapSet m k v) k = some v := by
  induction m with
  | nil => simp [mapSet, mapGet]
  | cons q rest ih =>
    by_cases hk : q.1 = k
    · rw [mapSet, if_pos hk, mapGet, if_pos rfl]
    · rw [mapSet, if_neg hk, mapGet, if_neg hk]
      exact ih

theorem mapGet_mapSet_other (m : DedupMap) (k k2 : String) (v : Nat)
    (h : k2 ≠ k) : mapGet (mapSet m k v) k2 = mapGet m k2 := by
  induction m with
  | nil =>
    have : ¬ (k = k2) := fun hh => h hh.symm
    simp [mapSet, mapGet, this]
  | cons q rest ih =>
    by_cases hk : q.1 = k
    · rw [mapSet, if_pos hk, mapGet, mapGet, hk]
      have : ¬ (k = k2) := fun hh => h hh.symm
      simp [this]
    · rw [mapSet, if_neg hk, mapGet, mapGet]
      by_cases hk2 : q.1 = k2
      · simp [hk2]
      · simp only [if_neg hk2]
        exact ih

theorem mem_mapSet {m : DedupMap} {k : String} {v : Nat} {q : String × Nat}
    (h : q ∈ mapSet m k v) : q = (k, v) ∨ q ∈ m := by
  induction m with
  | nil => simp [mapSet] at h; left; exact h
  | cons p rest ih =>
    by_cases hk : p.1 = k
    · rw [mapSet, if_pos hk] at h
      rcases List.mem_cons.mp h with h1 | h2
      · left; exact h1
      · right; exact List.mem_cons_of_mem p h2
    · rw [mapSet, if_neg hk] at h
      rcases List.mem_cons.mp h with h1 | h2
      · right; subst h1; exact List.mem_cons_self _ _
      · rcases ih h2 with h3 | h4
        · left; exact h3
        · right; exact List.mem_cons_of_mem p h4

/-- The key set of the recent map has no duplicates. -/
def keysNodup (m : DedupMap) : Prop := (m.map Prod.fst).Nodup

theorem gcMap_sublist (m : DedupMap) (t : Nat) : (gcMap m t).Sublist m := by
  induction m with
  | nil => simp [gcMap]
  | cons q rest ih =>
    by_cases hq : q.2 ≤ t
    · rw [gcMap, if_pos hq]
      exact ih.cons q
    · rw [gcMap, if_neg hq]
      exact ih.cons₂ q

theorem keysNodup_gcMap {m : DedupMap} (t : Nat) (h : keysNodup m) :
    keysNodup (gcMap m t) := by
  exact List.Nodup.sublist (List.Sublist.map Prod.fst (gcMap_sublist m t)) h

theorem keysNodup_mapSet {m : DedupMap} {k : String} {v : Nat}
    (h : keysNodup m) : keysNodup (mapSet m k v) := by
  induction m with
  | nil => simp [mapSet, keysNodup]
  | cons q rest ih =>
    by_cases hk : q.1 = k
    · rw [mapSet, if_pos hk]
      unfold keysNodup at *
      simp only [List.map_cons, List.nodup_cons] at *
      rw [← hk]
      exact h
    · rw [mapSet, if_neg hk]
      unfold keysNodup at *
      simp only [List.map_cons, List.nodup_cons] at *
      refine ⟨?_, ih h.2⟩
      intro hmem
      rcases List.mem_map.mp hmem with ⟨p, hp, hfst⟩
      rcases mem_mapSet hp with h1 | h2
      · apply hk
        rw [h1] at hfst
        exact hfst.symm ▸ rfl
      · exact h.1 (List.mem_map.mpr ⟨p, h2, hfst⟩)

/-! ## send behavior lemmas -/

theorem send_eq_post {m : DedupMap} {t : Nat} {e : Entry} {url ua : String}
    (h : mapGet (gcMap m t) (sig e) = none) :
    send m t e url ua
      = (mapSet (gcMap m t) (sig e) (t + RECENT_TTL_MS), some (mkPayload e url ua)) := by
  unfold send
  simp only [h]

theorem send_eq_suppress {m : DedupMap} {t : Nat} {e : Entry} {url ua : String}
    {v : Nat} (h : mapGet (gcMap m t) (sig e) = some v) (hv0 : v ≠ 0)
    (hvt : t < v) : send m t e url ua = (gcMap m t, none) := by
  unfold send
  simp only [h]
  rw [if_pos ⟨hv0, hvt⟩]

theorem sendSeq_cons (m : DedupMap) (c : Nat × Entry) (cs : List (Nat × Entry))
    (url ua : String) :
    sendSeq m (c :: cs) url ua =
      ((sendSeq (send m c.1 c.2 url ua).1 cs url ua).1,
       (send m c.1 c.2 url ua).2.toList
         ++ (sendSeq (send m c.1 c.2 url ua).1 cs url ua).2) := by
  rcases hs : send m c.1 c.2 url ua with ⟨m1, r⟩
  rcases h2 : sendSeq m1 cs url ua with ⟨m2, ps⟩
  simp only [sendSeq, hs, h2]

/-- A burst of suppressed duplicates: while the signature key holds an
unexpired expiry x, every send whose time is before x and whose entry has
that signature is suppressed, and the binding survives with value x. -/
theorem sendSeq_all_suppressed (url ua : String) (key : String) (x : Nat)
    (hx : x ≠ 0) :
    ∀ (rest : List (Nat × Entry)) (m : DedupMap),
      mapGet m key = some x → (∀ v, (key, v) ∈ m → v = x) →
      (∀ c ∈ rest, c.1 < x ∧ sig c.2 = key) →
      (sendSeq m rest url ua).2 = [] ∧
      mapGet (sendSeq m rest url ua).1 key = some x ∧
      (∀ v, (key, v) ∈ (sendSeq m rest url ua).1 → v = x) := by
  intro rest
  induction rest with
  | nil => intro m h1 h2 _; exact ⟨rfl, h1, h2⟩
  | cons c cs ih =>
    intro m h1 h2 hall
    have hc := hall c (List.mem_cons_self _ _)
    have hget : mapGet (gcMap m c.1) key = some x := mapGet_gcMap_some h1 hc.1
    have hsend : send m c.1 c.2 url ua = (gcMap m c.1, none) := by
      have hgetc : mapGet (gcMap m c.1) (sig c.2) = some x := by
        rw [hc.2]
        exact hget
      exact send_eq_suppress hgetc hx hc.1
    have hmem2 : ∀ v, (key, v) ∈ gcMap m c.1 → v = x :=
      fun v hv => h2 v (mem_gcMap hv).1
    have ihres := ih (gcMap m c.1) hget hmem2
      (fun d hd => hall d (List.mem_cons_of_mem c hd))
    rw [sendSeq_cons, hsend]
    simpa using ihres

/-! ## Claim C1: burst deduplication and TTL re-delivery -/

/-- C1: For every sequence of send calls whose records share one signature
(identical message, stack, source, line, col), all occurring from the time
of the first call up to (but not reaching) 5000 ms after it, exactly the
first record is posted by Transport and every later one is suppressed; and
a call with the same signature made once the 5000 ms TTL of the last
inserted entry (the first call, since suppressed duplicates do not refresh
the entry) has elapsed is posted again. -/
theorem dedup_burst_then_ttl_redelivery
    (m0 : DedupMap) (url ua : String) (e0 : Entry) (t0 : Nat)
    (rest : List (Nat × Entry)) (tL : Nat) (eL : Entry)
    (hfresh : mapGet m0 (sig e0) = none)
    (hrest : ∀ c ∈ rest, t0 ≤ c.1 ∧ c.1 < t0 + RECENT_TTL_MS ∧ sig c.2 = sig e0)
    (hL : sig eL = sig e0) (htL : t0 + RECENT_TTL_MS ≤ tL) :
    (sendSeq m0 ((t0, e0) :: rest) url ua).2 = [mkPayload e0 url ua] ∧
    (send (sendSeq m0 ((t0, e0) :: rest) url ua).1 tL eL url ua).2
      = some (mkPayload eL url ua) := by
  have hkey0 : mapGet (gcMap m0 t0) (sig e0) = none := mapGet_gcMap_none hfresh
  have hsend0 : send m0 t0 e0 url ua
      = (mapSet (gcMap m0 t0) (sig e0) (t0 + RECENT_TTL_MS),
         some (mkPayload e0 url ua)) := send_eq_post hkey0
  have hM1get : mapGet (mapSet (gcMap m0 t0) (sig e0) (t0 + RECENT_TTL_MS))
      (sig e0) = some (t0 + RECENT_TTL_MS) := mapGet_mapSet_self _ _ _
  have hM1mem : ∀ v, (sig e0, v) ∈ mapSet (gcMap m0 t0) (sig e0)
      (t0 + RECENT_TTL_MS) → v = t0 + RECENT_TTL_MS := by
    intro v hv
    rcases mem_mapSet hv with h1 | h2
    · exact congrArg Prod.snd h1
    · exact absurd h2 (mapGet_none_not_mem hkey0 v)
  have httl : t0 + RECENT_TTL_MS ≠ 0 := by
    unfold RECENT_TTL_MS
    omega
  have hsup := sendSeq_all_suppressed url ua (sig e0) (t0 + RECENT_TTL_MS) httl
    rest _ hM1get hM1mem (fun c hc => ⟨(hrest c hc).2.1, (hrest c hc).2.2⟩)
  have hfst : (sendSeq m0 ((t0, e0) :: rest) url ua).2 = [mkPayload e0 url ua] := by
    rw [sendSeq_cons]
    simp only [hsend0]
    rw [hsup.1]
    simp
  refine ⟨hfst, ?_⟩
  have hmapeq : (sendSeq m0 ((t0, e0) :: rest) url ua).1
      = (sendSeq (mapSet (gcMap m0 t0) (sig e0) (t0 + RECENT_TTL_MS)) rest url ua).1 := by
    rw [sendSeq_cons]
    simp only [hsend0]
  rw [hmapeq]
  have hnone : mapGet
      (gcMap (sendSeq (mapSet (gcMap m0 t0) (sig e0) (t0 + RECENT_TTL_MS))
        rest url ua).1 tL) (sig eL) = none := by
    rw [hL]
    cases hg : mapGet (gcMap (sendSeq (mapSet (gcMap m0 t0) (sig e0)
        (t0 + RECENT_TTL_MS)) rest url ua).1 tL) (sig e0) with
    | none => rfl
    | some v =>
      exfalso
      have hmemv := mem_gcMap (mapGet_some_mem hg)
      have hvx := hsup.2.2 v hmemv.1
      have := hmemv.2
      omega
  rw [send_eq_post hnone]

/-- Concrete entry used across witnesses. -/
def wEntry : Entry :=
  { severity := some "error", message := some "boom", stack := some "tr",
    source := some "app.js", line := some 3, col := some 7,
    componentStack := none }

/-- Witness for C1: a burst at 0, 1000, 2500 ms delivers only the first
record, and an identical call at 5000 ms is delivered again. -/
theorem dedup_burst_then_ttl_redelivery_witness :
    (sendSeq [] [(0, wEntry), (1000, wEntry), (2500, wEntry)] "u" "a").2
      = [mkPayload wEntry "u" "a"] ∧
    (send (sendSeq [] [(0, wEntry), (1000, wEntry), (2500, wEntry)] "u" "a").1
      5000 wEntry "u" "a").2 = some (mkPayload wEntry "u" "a") :=
  dedup_burst_then_ttl_redelivery [] "u" "a" wEntry 0
    [(1000, wEntry), (2500, wEntry)] 5000 wEntry rfl (by decide) rfl (by decide)

/-! ## Claim C2: which field differences prevent suppression -/

theorem string_append_assoc (a b c : String) : a ++ b ++ c = a ++ (b ++ c) := by
  apply string_data_inj
  simp [string_data_append]

theorem string_append_cancel_right {a b c : String} (h : a ++ c = b ++ c) :
    a = b := by
  apply string_data_inj
  have hd := congrArg String.data h
  rw [string_data_append, string_data_append] at hd
  exact List.append_cancel_right hd

theorem string_append_cancel_left {a b c : String} (h : a ++ b = a ++ c) :
    b = c := by
  apply string_data_inj
  have hd := congrArg String.data h
  rw [string_data_append, string_data_append] at hd
  exact List.append_cancel_left hd

/-- The property that two entries differ in exactly one of the five
signature fields (message, stack, source, line, col), after the
normalization sig itself applies. -/
def sigFieldsDiffer (e1 e2 : Entry) : Prop :=
  (strOr e1.message "" ≠ strOr e2.message "" ∧ strOr e1.stack "" = strOr e2.stack ""
    ∧ strOr e1.source "" = strOr e2.source "" ∧ intOr e1.line = intOr e2.line
    ∧ intOr e1.col = intOr e2.col) ∨
  (strOr e1.message "" = strOr e2.message "" ∧ strOr e1.stack "" ≠ strOr e2.stack ""
    ∧ strOr e1.source "" = strOr e2.source "" ∧ intOr e1.line = intOr e2.line
    ∧ intOr e1.col = intOr e2.col) ∨
  (strOr e1.message "" = strOr e2.message "" ∧ strOr e1.stack "" = strOr e2.stack ""
    ∧ strOr e1.source "" ≠ strOr e2.source "" ∧ intOr e1.line = intOr e2.line
    ∧ intOr e1.col = intOr e2.col) ∨
  (strOr e1.message "" = strOr e2.message "" ∧ strOr e1.stack "" = strOr e2.stack ""
    ∧ strOr e1.source "" = strOr e2.source "" ∧ intOr e1.line ≠ intOr e2.line
    ∧ intOr e1.col = intOr e2.col) ∨
  (strOr e1.message "" = strOr e2.message "" ∧ strOr e1.stack "" = strOr e2.stack ""
    ∧ strOr e1.source "" = strOr e2.source "" ∧ intOr e1.line = intOr e2.line
    ∧ intOr e1.col ≠ intOr e2.col)

instance (e1 e2 : Entry) : Decidable (sigFieldsDiffer e1 e2) := by
  unfold sigFieldsDiffer
  infer_instance

theorem sig_ne_of_sigFieldsDiffer {e1 e2 : Entry} (h : sigFieldsDiffer e1 e2) :
    sig e1 ≠ sig e2 := by
  intro hs
  unfold sig at hs
  simp only [string_append_assoc] at hs
  rcases h with ⟨hm, hb, hc, hd, he⟩ | ⟨hm, hb, hc, hd, he⟩ |
    ⟨hm, hb, hc, hd, he⟩ | ⟨hm, hb, hc, hd, he⟩ | ⟨hm, hb, hc, hd, he⟩
  · rw [hb, hc, hd, he] at hs
    exact hm (string_append_cancel_right hs)
  · rw [hm, hc, hd, he] at hs
    have h1 := string_append_cancel_left hs
    have h2 := string_append_cancel_left h1
    exact hb (string_append_cancel_right h2)
  · rw [hm, hb, hd, he] at hs
    have h1 := string_append_cancel_left (string_append_cancel_left hs)
    have h2 := string_append_cancel_left (string_append_cancel_left h1)
    exact hc (string_append_cancel_right h2)
  · rw [hm, hb, hc, he] at hs
    have h1 := string_append_cancel_left (string_append_cancel_left hs)
    have h2 := string_append_cancel_left (string_append_cancel_left h1)
    have h3 := string_append_cancel_left (string_append_cancel_left h2)
    exact hd (intToString_inj (string_append_cancel_right h3))
  · rw [hm, hb, hc, hd] at hs
    have h1 := string_append_cancel_left (string_append_cancel_left hs)
    have h2 := string_append_cancel_left (string_append_cancel_left h1)
    have h3 := string_append_cancel_left (string_append_cancel_left h2)
    have h4 := string_append_cancel_left (string_append_cancel_left h3)
    exact he (intToString_inj h4)

/-- Entry used in the C2 counterexample; differs from wEntry only in
severity. -/
def wEntryWarn : Entry := { wEntry with severity := some "warn" }

/-- Counterexample to C2 as stated: two records that differ in exactly one
field, severity, are NOT both delivered: the second is suppressed, because
the dedup signature ignores severity (as well as url, userAgent and
componentStack). -/
theorem severity_only_diff_is_suppressed :
    wEntry.severity ≠ wEntryWarn.severity ∧
    wEntry.message = wEntryWarn.message ∧ wEntry.stack = wEntryWarn.stack ∧
    wEntry.source = wEntryWarn.source ∧ wEntry.line = wEntryWarn.line ∧
    wEntry.col = wEntryWarn.col ∧
    wEntry.componentStack = wEntryWarn.componentStack ∧
    (send [] 0 wEntry "u" "a").2 = some (mkPayload wEntry "u" "a") ∧
    (send (send [] 0 wEntry "u" "a").1 1 wEntryWarn "u" "a").2 = none := by
  decide

/-- C2 amended: for every pair of error records that differ in exactly one
of the five signature fields (message, stack, source, line, col, after
normalization), neither is suppressed against the other: both are
delivered to Transport. Records agreeing on all five signature fields but
differing only in severity, url, userAgent or componentStack are instead
deduplicated (see the counterexample). -/
theorem sig_field_diff_records_both_delivered
    (m0 : DedupMap) (t1 t2 : Nat) (e1 e2 : Entry) (url ua : String)
    (h1 : mapGet m0 (sig e1) = none) (h2 : mapGet m0 (sig e2) = none)
    (hdiff : sigFieldsDiffer e1 e2) :
    (send m0 t1 e1 url ua).2 = some (mkPayload e1 url ua) ∧
    (send (send m0 t1 e1 url ua).1 t2 e2 url ua).2 = some (mkPayload e2 url ua) := by
  have hg1 : mapGet (gcMap m0 t1) (sig e1) = none := mapGet_gcMap_none h1
  have hs1 := @send_eq_post m0 t1 e1 url ua hg1
  refine ⟨by rw [hs1], ?_⟩
  rw [hs1]
  have hne : sig e2 ≠ sig e1 := (sig_ne_of_sigFieldsDiffer hdiff).symm
  have hg2 : mapGet (mapSet (gcMap m0 t1) (sig e1) (t1 + RECENT_TTL_MS))
      (sig e2) = none := by
    rw [mapGet_mapSet_other _ _ _ _ hne]
    exact mapGet_gcMap_none h2
  have hg3 := @mapGet_gcMap_none _ _ t2 hg2
  rw [send_eq_post hg3]

/-- Entry differing from wEntry only in the message signature field. -/
def wEntryMsg : Entry := { wEntry with message := some "crash" }

/-- Witness for the amended C2: records differing only in message are both
delivered. -/
theorem sig_field_diff_records_both_delivered_witness :
    (send [] 0 wEntry "u" "a").2 = some (mkPayload wEntry "u" "a") ∧
    (send (send [] 0 wEntry "u" "a").1 1 wEntryMsg "u" "a").2
      = some (mkPayload wEntryMsg "u" "a") :=
  sig_field_diff_records_both_delivered [] 0 1 wEntry wEntryMsg "u" "a"
    rfl rfl (by decide)

/-! ## Claim C10: recent-map invariant after every send -/

/-- C10: for every call to send(entry) with sweep time t, starting from a
recent map whose keys are distinct and whose expiries were all written at
times at most t (so are at most t + 5000), when the call returns the map
holds at most one entry per signature, every remaining entry has an expiry
strictly greater than t, and the signature of entry itself is bound to an
expiry in the half-open interval (t, t + 5000]. Hence no signature stays
suppressible longer than 5000 ms past its last insertion. -/
theorem send_map_invariant (m : DedupMap) (t : Nat) (e : Entry)
    (url ua : String) (hnd : keysNodup m)
    (hexp : ∀ p ∈ m, p.2 ≤ t + RECENT_TTL_MS) :
    keysNodup (send m t e url ua).1 ∧
    (∀ p ∈ (send m t e url ua).1, t < p.2) ∧
    (∃ x, mapGet (send m t e url ua).1 (sig e) = some x ∧ t < x
      ∧ x ≤ t + RECENT_TTL_MS) := by
  have hgcnd : keysNodup (gcMap m t) := keysNodup_gcMap t hnd
  cases hg : mapGet (gcMap m t) (sig e) with
  | some v =>
    have hmemv := mem_gcMap (mapGet_some_mem hg)
    have hvle : v ≤ t + RECENT_TTL_MS := hexp _ hmemv.1
    have hvt : t < v := hmemv.2
    have hv0 : v ≠ 0 := by omega
    rw [send_eq_suppress hg hv0 hvt]
    refine ⟨hgcnd, fun p hp => (mem_gcMap hp).2, v, hg, hvt, hvle⟩
  | none =>
    rw [send_eq_post hg]
    refine ⟨keysNodup_mapSet hgcnd, ?_, ?_⟩
    · intro p hp
      rcases mem_mapSet hp with h1 | h2
      · rw [h1]
        unfold RECENT_TTL_MS
        omega
      · exact (mem_gcMap h2).2
    · refine ⟨t + RECENT_TTL_MS, mapGet_mapSet_self _ _ _, ?_, le_refl _⟩
      unfold RECENT_TTL_MS
      omega

/-- Witness for C10 at a concrete map holding a fresh and a stale entry. -/
theorem send_map_invariant_witness :
    keysNodup (send [("k", 4000), ("j", 10)] 100 wEntry "u" "a").1 ∧
    (∀ p ∈ (send [("k", 4000), ("j", 10)] 100 wEntry "u" "a").1, 100 < p.2) ∧
    (∃ x, mapGet (send [("k", 4000), ("j", 10)] 100 wEntry "u" "a").1
      (sig wEntry) = some x ∧ 100 < x ∧ x ≤ 100 + RECENT_TTL_MS) :=
  send_map_invariant [("k", 4000), ("j", 10)] 100 wEntry "u" "a"
    (by simp [keysNodup]) (by decide)

/-! ## Claim C6: Transport never raises -/

/-- Models promise.catch with a swallowing handler: an asynchronous
rejection of the fetch promise is discarded. -/
def promiseCatch (p : Except String Unit) : Except String Unit :=
  match p with
  | Except.ok u => Except.ok u
  | Except.error _ => Except.ok ()

/-- post from clientErrorReporter.js: JSON.stringify and fetch run inside
try/catch, and the returned promise gets a swallowing catch handler. The
serializer may throw (Except.error); the fetch implementation may throw
synchronously (outer Except.error) or return a promise that later rejects
(inner Except.error). An Except.error result would model an exception
escaping to the caller. -/
def post (serialize : Payload → Except String String)
    (fetchImpl : String → Except String (Except String Unit))
    (payload : Payload) : Except String Unit :=
  match serialize payload with
  | Except.error _ => Except.ok ()
  | Except.ok body =>
    match fetchImpl body with
    | Except.error _ => Except.ok ()
    | Except.ok prom => promiseCatch prom

/-- C6: for every record, post returns without raising to its caller, for
every behavior of serialization and of the network request (synchronous
throw, asynchronous rejection, or success); the failure is silently
discarded. -/
theorem post_never_raises (serialize : Payload → Except String String)
    (fetchImpl : String → Except String (Except String Unit))
    (payload : Payload) : post serialize fetchImpl payload = Except.ok () := by
  cases hs : serialize payload with
  | error e => simp [post, hs]
  | ok body =>
    cases hf : fetchImpl body with
    | error e => simp [post, hs, hf]
    | ok prom =>
      cases prom with
      | ok u => simp [post, hs, hf, promiseCatch]
      | error e => simp [post, hs, hf, promiseCatch]

/-! ## Claim C7: the unhandled-rejection handler -/

/-- A JavaScript value as the unhandled-rejection handler sees
event.reason: primitives, null, undefined, or an object whose message and
stack properties may each be absent. -/
inductive JSValue where
  | vNull
  | vUndefined
  | vBool (b : Bool)
  | vNum (n : Int)
  | vStr (s : String)
  | vObj (message : Option String) (stack : Option String)
deriving Repr, DecidableEq

/-- JS truthiness of the modelled values. -/
def truthy : JSValue → Bool
  | .vNull => false
  | .vUndefined => false
  | .vBool b => b
  | .vNum n => n != 0
  | .vStr s => s != ""
  | .vObj _ _ => true

/-- JS String() coercion of the modelled values. -/
def jsToString : JSValue → String
  | .vNull => "null"
  | .vUndefined => "undefined"
  | .vBool b => if b then "true" else "false"
  | .vNum n => toString n
  | .vStr s => s
  | .vObj _ _ => "[object Object]"

/-- The isErr test in onUnhandledRejection: r is truthy, typeof r is
object, and message or stack is a property of r. -/
def isErrLike : JSValue → Bool
  | .vObj m s => m.isSome || s.isSome
  | _ => false

/-- The entry built by onUnhandledRejection in clientErrorReporter.js from
event.reason and passed to send. -/
def onUnhandledRejection (r : JSValue) : Entry :=
  { severity := some "error"
    message := some (if isErrLike r then
        match r with
        | .vObj m _ => strOr m "Unhandled rejection"
        | _ => "Unhandled rejection"
      else if truthy r then jsToString r else "Unhandled rejection")
    stack := some (if isErrLike r then
        match r with
        | .vObj _ s => strOr s ""
        | _ => ""
      else "")
    source := some ""
    line := some 0
    col := some 0
    componentStack := none }

/-- Counterexample to C7 as stated: a rejection whose reason is the falsy
non-object value 0 is not stringified; the fixed placeholder is used
instead, because the code computes String(r || fallback). -/
theorem falsy_reason_not_stringified :
    isErrLike (JSValue.vNum 0) = false ∧
    jsToString (JSValue.vNum 0) = "0" ∧
    (onUnhandledRejection (JSValue.vNum 0)).message = some "Unhandled rejection" ∧
    (onUnhandledRejection (JSValue.vNum 0)).message
      ≠ some (jsToString (JSValue.vNum 0)) := by
  decide

/-- C7 amended: if the rejected value exposes message or stack fields, the
emitted record takes message and stack from those fields (with the fixed
placeholder when the message value is falsy and the empty string when the
stack value is falsy); otherwise the value itself is stringified as the
message when it is truthy (the fixed placeholder is used for falsy values)
and the stack is empty; in particular a rejection whose reason is an Error
with message "boom" and a non-empty stack yields a record with message
"boom" and that non-empty stack. -/
theorem rejection_record_fields (msg st : String) (r : JSValue)
    (hmsg : msg ≠ "") (hst : st ≠ "") (hnotObj : isErrLike r = false) :
    (onUnhandledRejection (JSValue.vObj (some msg) (some st))).message = some msg ∧
    (onUnhandledRejection (JSValue.vObj (some msg) (some st))).stack = some st ∧
    (truthy r = true →
      (onUnhandledRejection r).message = some (jsToString r)) ∧
    (truthy r = false →
      (onUnhandledRejection r).message = some "Unhandled rejection") ∧
    (onUnhandledRejection r).stack = some "" ∧
    (onUnhandledRejection (JSValue.vObj (some "boom") (some st))).message
      = some "boom" ∧
    (onUnhandledRejection (JSValue.vObj (some "boom") (some st))).stack ≠ some "" := by
  have hobj : isErrLike (JSValue.vObj (some msg) (some st)) = true := by
    simp [isErrLike]
  have hboom : isErrLike (JSValue.vObj (some "boom") (some st)) = true := by
    simp [isErrLike]
  refine ⟨?_, ?_, ?_, ?_, ?_, ?_, ?_⟩
  · simp [onUnhandledRejection, hobj, strOr, hmsg]
  · simp [onUnhandledRejection, hobj, strOr, hst]
  · intro ht
    simp [onUnhandledRejection, hnotObj, ht]
  · intro ht
    simp [onUnhandledRejection, hnotObj, ht]
  · simp [onUnhandledRejection, hnotObj]
  · simp [onUnhandledRejection, hboom, strOr]
  · simp [onUnhandledRejection, hboom, strOr, hst]

/-- Witness for the amended C7: an Error-like reason with message "boom"
and stack "trace", and the truthy non-object reason "oops". -/
theorem rejection_record_fields_witness :
    (onUnhandledRejection (JSValue.vObj (some "boom") (some "trace"))).message
      = some "boom" ∧
    (onUnhandledRejection (JSValue.vObj (some "boom") (some "trace"))).stack
      = some "trace" ∧
    (onUnhandledRejection (JSValue.vStr "oops")).message = some "oops" ∧
    (onUnhandledRejection (JSValue.vNull)).message = some "Unhandled rejection" := by
  refine ⟨(rejection_record_fields "boom" "trace" (JSValue.vStr "oops")
      (by decide) (by decide) (by decide)).1,
    (rejection_record_fields "boom" "trace" (JSValue.vStr "oops")
      (by decide) (by decide) (by decide)).2.1, ?_, ?_⟩
  · have := (rejection_record_fields "boom" "trace" (JSValue.vStr "oops")
      (by decide) (by decide) (by decide)).2.2.1 (by decide)
    simpa [jsToString] using this
  · exact (rejection_record_fields "boom" "trace" JSValue.vNull
      (by decide) (by decide) (by decide)).2.2.2.1 (by decide)

/-! ## ErrorBoundary.jsx: render-failure boundary -/

/-- A caught JS Error object as ErrorBoundary sees it: name plus possibly
absent message and stack properties. -/
structure JsError where
  name : String
  message : Option String
  stack : Option String
deriving Repr, DecidableEq

/-- The payload built by componentDidCatch in the first ErrorBoundary
variant: (error and error.message) or the RenderError placeholder, with the
fixed source literal, zero line and col, ambient url and userAgent, and the
componentStack from the info argument. -/
def boundaryPayload (error : Option JsError) (componentStack : Option String)
    (url userAgent : Option String) : Payload :=
  { severity := "error"
    message := strOr (error.bind JsError.message) "RenderError"
    stack := strOr (error.bind JsError.stack) ""
    source := "ReactErrorBoundary"
    line := 0
    col := 0
    url := strOr url ""
    userAgent := strOr userAgent ""
    componentStack := strOr componentStack "" }

/-- componentDidCatch posts its payload with a direct fetch call: it never
consults the reporter dedup map. The delivered records for a sequence of
caught failures (error, componentStack pairs) are therefore one per catch. -/
def boundaryDeliveries (catches : List (Option JsError × Option String))
    (url userAgent : Option String) : List Payload :=
  catches.map (fun c => boundaryPayload c.1 c.2 url userAgent)

/-- The error object used in boundary witnesses. -/
def wBoundaryErr : JsError :=
  { name := "Error", message := some "boom", stack := some "trace" }

/-- Counterexample to C3 as stated: two identical render failures caught
back to back (well within any 5000 ms window) yield two delivered records,
not at most one, because componentDidCatch posts directly and never passes
through the Deduplicator. -/
theorem repeated_render_failure_delivers_twice :
    (boundaryDeliveries
      [(some wBoundaryErr, some "in App"), (some wBoundaryErr, some "in App")]
      (some "u") (some "a")).length = 2 ∧
    ¬ ((boundaryDeliveries
      [(some wBoundaryErr, some "in App"), (some wBoundaryErr, some "in App")]
      (some "u") (some "a")).length ≤ 1) := by
  decide

/-- C3 amended: every record produced by the Render-Failure Boundary on
catching a failure is posted directly to Transport, bypassing the
Deduplicator: n caught failures yield n delivered records even when
identical and within the TTL window, and every such record carries the
fixed source literal "ReactErrorBoundary". -/
theorem boundary_posts_directly
    (catches : List (Option JsError × Option String)) (url ua : Option String) :
    (boundaryDeliveries catches url ua).length = catches.length ∧
    ∀ p ∈ boundaryDeliveries catches url ua, p.source = "ReactErrorBoundary" := by
  refine ⟨by simp [boundaryDeliveries], ?_⟩
  intro p hp
  rcases List.mem_map.mp hp with ⟨c, hc, hpc⟩
  rw [← hpc]
  rfl

/-- Witness for the amended C3 at one concrete caught failure. -/
theorem boundary_posts_directly_witness :
    (boundaryDeliveries [(some wBoundaryErr, some "in App")]
      (some "u") (some "a")).length = 1 ∧
    (boundaryPayload (some wBoundaryErr) (some "in App")
      (some "u") (some "a")).source = "ReactErrorBoundary" :=
  ⟨(boundary_posts_directly [(some wBoundaryErr, some "in App")]
      (some "u") (some "a")).1,
   (boundary_posts_directly [(some wBoundaryErr, some "in App")]
      (some "u") (some "a")).2
     (boundaryPayload (some wBoundaryErr) (some "in App") (some "u") (some "a"))
     (by decide)⟩

/-! ## Claim C9: boundary state machine -/

/-- React state of an ErrorBoundary instance; hasError false is the
Healthy state, hasError true the Failed state. -/
structure BoundaryState where
  hasError : Bool
  message : String
deriving Repr, DecidableEq

/-- The constructor initial state of ErrorBoundary. -/
def boundaryInitial : BoundaryState := { hasError := false, message := "" }

/-- getDerivedStateFromError from ErrorBoundary.jsx. -/
def getDerivedStateFromError (error : Option JsError) : BoundaryState :=
  { hasError := true
    message := strOr (error.bind JsError.message) "RenderError" }

/-- The operations React performs on a mounted boundary instance: catching
a failure raised during construction or update of the wrapped subtree
(which applies getDerivedStateFromError), or an ordinary update. The class
calls setState nowhere, so no other operation touches the state. -/
inductive BoundaryOp where
  | catchError (error : Option JsError)
  | update
deriving Repr, DecidableEq

def stepBoundary (s : BoundaryState) : BoundaryOp → BoundaryState
  | .catchError e => getDerivedStateFromError e
  | .update => s

def runBoundary (s : BoundaryState) : List BoundaryOp → BoundaryState
  | [] => s
  | op :: ops => runBoundary (stepBoundary s op) ops

/-- What ErrorBoundary.render returns: the wrapped children, or the
fallback view with its heading and the captured message text. -/
inductive RenderResult where
  | children
  | fallback (title : String) (message : String)
deriving Repr, DecidableEq

/-- render from ErrorBoundary.jsx. -/
def renderBoundary (s : BoundaryState) : RenderResult :=
  if s.hasError then RenderResult.fallback "Something went wrong" s.message
  else RenderResult.children

/-- C9: the boundary is a two-state machine starting Healthy; any caught
failure moves it to Failed; Failed is terminal for the mount instance (no
operation returns it to Healthy); and in the Failed state the fallback
view (the generic failure heading plus the captured message) is rendered
in place of the children. -/
theorem boundary_state_machine :
    boundaryInitial.hasError = false ∧
    (∀ s e, (stepBoundary s (BoundaryOp.catchError e)).hasError = true) ∧
    (∀ s ops, s.hasError = true → (runBoundary s ops).hasError = true) ∧
    (∀ s, s.hasError = true →
      renderBoundary s = RenderResult.fallback "Something went wrong" s.message) ∧
    (∀ s, s.hasError = false → renderBoundary s = RenderResult.children) := by
  refine ⟨rfl, fun s e => rfl, ?_, ?_, ?_⟩
  · intro s ops
    induction ops generalizing s with
    | nil => intro h; exact h
    | cons op rest ih =>
      intro h
      apply ih
      cases op with
      | catchError e => rfl
      | update => exact h
  · intro s h
    simp [renderBoundary, h]
  · intro s h
    simp [renderBoundary, h]

/-- Witness for C9: a failed instance stays failed across an update and
renders the fallback with its message; the initial state renders the
children. -/
theorem boundary_state_machine_witness :
    (runBoundary (BoundaryState.mk true "boom") [BoundaryOp.update]).hasError
      = true ∧
    renderBoundary (BoundaryState.mk true "boom")
      = RenderResult.fallback "Something went wrong" "boom" ∧
    renderBoundary boundaryInitial = RenderResult.children :=
  ⟨boundary_state_machine.2.2.1 (BoundaryState.mk true "boom")
      [BoundaryOp.update] rfl,
   boundary_state_machine.2.2.2.1 (BoundaryState.mk true "boom") rfl,
   boundary_state_machine.2.2.2.2 boundaryInitial rfl⟩

/-! ## Claim C8: shape of records on the wire -/

/-- A JSON value as it appears in the POST body: null, a string, or a
number. -/
inductive JVal where
  | jNull
  | jStr (s : String)
  | jInt (n : Int)
deriving Repr, DecidableEq

/-- A JSON object on the wire: ordered field list. -/
abbrev WireRecord := List (String × JVal)

def wireGet : WireRecord → String → Option JVal
  | [], _ => none
  | p :: rest, k => if p.1 = k then some p.2 else wireGet rest k

/-- The JS idiom x || null on a string-valued slot: falsy values reach the
wire as null. -/
def jStrOrNull (v : Option String) : JVal :=
  match v with
  | some s => if s = "" then JVal.jNull else JVal.jStr s
  | none => JVal.jNull

/-- The JSON body posted by send in clientErrorReporter.js. -/
def sendWire (e : Entry) (url userAgent : String) : WireRecord :=
  [("severity", JVal.jStr (strOr e.severity "error")),
   ("message", JVal.jStr (strOr e.message "")),
   ("stack", JVal.jStr (strOr e.stack "")),
   ("source", JVal.jStr (strOr e.source "")),
   ("line", JVal.jInt (intOr e.line)),
   ("col", JVal.jInt (intOr e.col)),
   ("url", JVal.jStr url),
   ("userAgent", JVal.jStr userAgent),
   ("componentStack", JVal.jStr (strOr e.componentStack ""))]

/-- The JSON body posted by componentDidCatch in the first ErrorBoundary
variant (posts to /api/client-error). -/
def boundaryWireV1 (error : Option JsError) (componentStack : Option String)
    (url userAgent : Option String) : WireRecord :=
  [("severity", JVal.jStr "error"),
   ("message", JVal.jStr (strOr (error.bind JsError.message) "RenderError")),
   ("stack", JVal.jStr (strOr (error.bind JsError.stack) "")),
   ("source", JVal.jStr "ReactErrorBoundary"),
   ("line", JVal.jInt 0),
   ("col", JVal.jInt 0),
   ("url", JVal.jStr (strOr url "")),
   ("userAgent", JVal.jStr (strOr userAgent "")),
   ("componentStack", JVal.jStr (strOr componentStack ""))]

/-- The JSON body posted by componentDidCatch in the second ErrorBoundary
variant (posts to /api/logs/frontend): missing or falsy values reach the
wire as null, line and col are always null, url is renamed href, and no
severity field exists at all. -/
def boundaryWireV2 (error : Option JsError) (componentStack : Option String)
    (href userAgent : Option String) : WireRecord :=
  [("message", JVal.jStr (strOr (error.bind JsError.message) "RenderError")),
   ("stack", jStrOrNull (error.bind JsError.stack)),
   ("source", JVal.jStr "ReactErrorBoundary"),
   ("line", JVal.jNull),
   ("col", JVal.jNull),
   ("href", jStrOrNull href),
   ("userAgent", jStrOrNull userAgent),
   ("componentStack", jStrOrNull componentStack)]

/-- Counterexample to C8 as stated: the second ErrorBoundary variant puts
null on the wire (line, col, and stack when the error has none) and sends
no severity field at all. -/
theorem v2_wire_has_nulls_and_no_severity :
    wireGet (boundaryWireV2 (some (JsError.mk "Error" (some "boom") none))
      none none none) "line" = some JVal.jNull ∧
    wireGet (boundaryWireV2 (some (JsError.mk "Error" (some "boom") none))
      none none none) "stack" = some JVal.jNull ∧
    wireGet (boundaryWireV2 (some (JsError.mk "Error" (some "boom") none))
      none none none) "severity" = none := by
  decide

/-- An entry with every slot absent, as from a caller passing an empty
object. -/
def emptyEntry : Entry :=
  { severity := none, message := none, stack := none, source := none,
    line := none, col := none, componentStack := none }

/-- C8 amended: every record put on the wire by the client reporter send
and by the first ErrorBoundary variant has every field present and
non-null (empty string for missing text fields, 0 for missing line and
col) and severity always set; the second ErrorBoundary variant instead
sends null for absent stack, href, userAgent and componentStack, always
sends null line and col, and omits severity entirely. -/
theorem wire_records_totally_defaulted (e : Entry) (url ua : String)
    (error : Option JsError) (cs href ua2 : Option String) :
    (∀ p ∈ sendWire e url ua, p.2 ≠ JVal.jNull) ∧
    wireGet (sendWire e url ua) "severity"
      = some (JVal.jStr (strOr e.severity "error")) ∧
    sendWire emptyEntry url ua
      = [("severity", JVal.jStr "error"), ("message", JVal.jStr ""),
         ("stack", JVal.jStr ""), ("source", JVal.jStr ""),
         ("line", JVal.jInt 0), ("col", JVal.jInt 0),
         ("url", JVal.jStr url), ("userAgent", JVal.jStr ua),
         ("componentStack", JVal.jStr "")] ∧
    (∀ p ∈ boundaryWireV1 error cs href ua2, p.2 ≠ JVal.jNull) ∧
    wireGet (boundaryWireV1 error cs href ua2) "severity"
      = some (JVal.jStr "error") ∧
    wireGet (boundaryWireV2 error cs href ua2) "line" = some JVal.jNull ∧
    wireGet (boundaryWireV2 error cs href ua2) "severity" = none := by
  refine ⟨?_, rfl, rfl, ?_, rfl, rfl, rfl⟩
  · intro p hp
    simp only [sendWire, List.mem_cons, List.not_mem_nil, or_false] at hp
    rcases hp with h | h | h | h | h | h | h | h | h <;> subst h <;> simp
  · intro p hp
    simp only [boundaryWireV1, List.mem_cons, List.not_mem_nil, or_false] at hp
    rcases hp with h | h | h | h | h | h | h | h | h <;> subst h <;> simp

/-- Witness for the amended C8 at a concrete field of a concrete record. -/
theorem wire_records_totally_defaulted_witness :
    (("line", JVal.jInt 3) ∈ sendWire wEntry "u" "a") ∧
    ("line", JVal.jInt 3).2 ≠ JVal.jNull ∧
    wireGet (sendWire wEntry "u" "a") "severity" = some (JVal.jStr "error") :=
  ⟨by decide,
   (wire_records_totally_defaulted wEntry "u" "a" none none none none).1
     ("line", JVal.jInt 3) (by decide),
   (wire_records_totally_defaulted wEntry "u" "a" none none none none).2.1⟩

/-! ## Claim C4: installer idempotence -/

/-- Page-global listener and console state: counts of registered
capture-phase listeners for the error and unhandledrejection events, the
number of console-wrapping layers installed, and whether the reporter
module body has already been evaluated (an ES module body runs at most
once per page, which is what makes a repeated install request a no-op;
main.jsx calls installClientErrorReporter() after importing the module). -/
structure ListenerState where
  moduleEvaluated : Bool
  errorListeners : Nat
  rejectionListeners : Nat
  consoleWraps : Nat
deriving Repr, DecidableEq

/-- A page before the reporter module is loaded. -/
def freshPage : ListenerState :=
  { moduleEvaluated := false, errorListeners := 0, rejectionListeners := 0,
    consoleWraps := 0 }

/-- The init IIFE at the bottom of clientErrorReporter.js, guarded by
once-per-page ES module evaluation: registers one capture-phase listener
for the error event and one for the unhandledrejection event; it wraps no
console method. -/
def installReporter (s : ListenerState) : ListenerState :=
  if s.moduleEvaluated then s
  else
    { moduleEvaluated := true
      errorListeners := s.errorListeners + 1
      rejectionListeners := s.rejectionListeners + 1
      consoleWraps := s.consoleWraps }

/-- WindowErrorEvent as onWindowError reads it: the associated error
object when present, the event message, filename, lineno and colno. -/
structure WindowErrorEvent where
  error : Option JsError
  message : Option String
  filename : Option String
  lineno : Option Int
  colno : Option Int
deriving Repr, DecidableEq

/-- onWindowError from clientErrorReporter.js: the entry passed to send. -/
def onWindowError (ev : WindowErrorEvent) : Entry :=
  { severity := some "error"
    message := some (strOr (ev.error.bind JsError.message)
      (strOr ev.message "Uncaught error"))
    stack := some (strOr (ev.error.bind JsError.stack) "")
    source := some (strOr ev.filename "")
    line := some (intOr ev.lineno)
    col := some (intOr ev.colno)
    componentStack := none }

/-- Dispatching one uncaught error event at time t: every registered error
listener runs onWindowError, which calls send on the shared recent map;
returns the final map and the number of delivered records. -/
def dispatchUncaughtError : Nat → DedupMap → Nat → WindowErrorEvent →
    String → String → DedupMap × Nat
  | 0, m, _, _, _, _ => (m, 0)
  | k + 1, m, t, ev, url, ua =>
    match send m t (onWindowError ev) url ua with
    | (m1, r) =>
      match dispatchUncaughtError k m1 t ev url ua with
      | (m2, c) => (m2, (if r.isSome then 1 else 0) + c)

/-- Counterexample to C4 as stated: after two install requests there is no
console-wrapping layer at all (the client reporter wraps no console
method), not exactly one. -/
theorem no_console_wrap_layer :
    (installReporter (installReporter freshPage)).consoleWraps = 0 ∧
    (installReporter (installReporter freshPage)).consoleWraps ≠ 1 := by
  decide

/-- C4 amended: a second install request in the same page lifetime is a
no-op: afterwards exactly one capture-phase error listener and exactly one
unhandledrejection listener exist, and no console-wrapping layer (the
client reporter does not wrap console methods; only the dev server wraps
console.error in Node). A single uncaught error then yields exactly one
delivered record. -/
theorem install_twice_single_listeners (s : ListenerState) :
    installReporter (installReporter s) = installReporter s ∧
    (installReporter (installReporter freshPage)).errorListeners = 1 ∧
    (installReporter (installReporter freshPage)).rejectionListeners = 1 ∧
    (installReporter (installReporter freshPage)).consoleWraps = 0 ∧
    (∀ (ev : WindowErrorEvent) (t : Nat) (url ua : String),
      (dispatchUncaughtError
        (installReporter (installReporter freshPage)).errorListeners
        [] t ev url ua).2 = 1) := by
  refine ⟨?_, rfl, rfl, rfl, ?_⟩
  · unfold installReporter
    by_cases h : s.moduleEvaluated
    · simp [h]
    · simp [h]
  · intro ev t url ua
    have h1 : mapGet (gcMap [] t) (sig (onWindowError ev)) = none := rfl
    show (dispatchUncaughtError 1 [] t ev url ua).2 = 1
    unfold dispatchUncaughtError
    rw [send_eq_post h1]
    rfl

/-! ## Claim C5: console wrapping -/

/-- An argument of a console call, as the dev-server file logger in
vite.config.js serializes it: a plain string, an Error instance (name,
message, possibly absent stack), or any other value with its
JSON.stringify result (none when stringify throws) and its String()
rendering used as the fallback. -/
inductive ConsoleArg where
  | argString (s : String)
  | argError (name : String) (message : String) (stack : Option String)
  | argOther (json : Option String) (str : String)
deriving Repr, DecidableEq

/-- serialize from errorFileLogger in vite.config.js, per argument. -/
def serializeArg : ConsoleArg → String
  | .argString s => s
  | .argError n msg st => n ++ ": " ++ msg ++ "\n" ++ strOr st ""
  | .argOther (some j) _ => j
  | .argOther none s => s

/-- serialize from errorFileLogger: arguments joined with single spaces. -/
def serializeArgs (args : List ConsoleArg) : String :=
  String.intercalate " " (args.map serializeArg)

/-- writeLine from errorFileLogger: the line appended to
frontend-error.log, with its ISO timestamp and capture tag. -/
def writeLine (stamp tag : String) (args : List ConsoleArg) : String :=
  "[" ++ stamp ++ "] " ++ tag ++ " " ++ serializeArgs args ++ "\n"

/-- The console methods configureServer in vite.config.js reassigns:
exactly console.error (the vite logger error method is wrapped separately;
console.warn is left untouched, and the browser-side reporter wraps
nothing). -/
def wrappedConsoleMethods : List String := ["error"]

/-- The wrapped console.error installed by configureServer: appends the
log line, then invokes the original console.error with the unmodified
arguments. -/
def wrappedConsoleError (stamp : String) (args : List ConsoleArg) :
    String × List ConsoleArg :=
  (writeLine stamp "console.error" args, args)

/-- Counterexample to C5 as stated: console.warn is not among the wrapped
methods (only console.error is), and the wrap emits an appended log line,
not an ErrorRecord with source "console"; the line for
console.error("x", applied to an object serializing to \x7b"a":1\x7d) is shown in
full. -/
theorem console_warn_not_wrapped :
    "warn" ∉ wrappedConsoleMethods ∧
    "error" ∈ wrappedConsoleMethods ∧
    (wrappedConsoleError "T" [ConsoleArg.argString "x",
      ConsoleArg.argOther (some "\x7b\"a\":1\x7d") "[object Object]"]).1
      = "[T] console.error x \x7b\"a\":1\x7d\n" := by
  decide

/-- C5 amended: the dev server (not the browser installer) wraps exactly
console.error: for every call the original method still receives the
unmodified arguments, and one line is appended to the log file of the
form [timestamp] console.error followed by the arguments joined by
spaces, with strings kept as is, Errors rendered as name: message then
stack, and other values JSON-serialized with a String() fallback when
serialization fails; console.warn is not wrapped and no ErrorRecord with
source "console" is produced. -/
theorem console_error_wrap_behavior (stamp : String) (args : List ConsoleArg) :
    wrappedConsoleMethods = ["error"] ∧
    (wrappedConsoleError stamp args).2 = args ∧
    (wrappedConsoleError stamp args).1 = writeLine stamp "console.error" args ∧
    serializeArg (ConsoleArg.argString "x") = "x" ∧
    serializeArg (ConsoleArg.argError "TypeError" "bad" (some "st"))
      = "TypeError: bad\nst" ∧
    serializeArg (ConsoleArg.argOther none "[object Object]")
      = "[object Object]" ∧
    (wrappedConsoleError "T" [ConsoleArg.argString "x",
      ConsoleArg.argOther (some "\x7b\"a\":1\x7d") "[object Object]"]).1
      = "[T] console.error x \x7b\"a\":1\x7d\n" := by
  refine ⟨rfl, rfl, rfl, rfl, ?_, rfl, by decide⟩
  decide
